/-
Verification of the snncompare staged-experiment pipeline helpers.

The Python modules under study are embedded shallowly:
  * Python values are the inductive `Val`; Python dicts are insertion-ordered
    association lists `List (String × Val)` (the invariant that keys are
    unique is stated as a hypothesis where a proof needs it).
  * Exceptions are modelled with `Except PyErr`; the error kind mirrors the
    Python exception class that is raised.
  * `str()` of a dict is modelled by `pyStr`, following Python `repr` for the
    embedded value universe.
-/
import Mathlib

set_option autoImplicit false

namespace Snncompare

/-- The universe of Python values appearing in run configurations and graph
attributes: ints, strings, booleans, `None`, lists and (insertion-ordered)
dicts with string keys. -/
inductive Val where
  | vint  : Int → Val
  | vstr  : String → Val
  | vbool : Bool → Val
  | vnone : Val
  | vlist : List Val → Val
  | vdict : List (String × Val) → Val

/-- A Python dict with string keys: an insertion-ordered association list. -/
abbrev PyDict := List (String × Val)

/-- The Python exception classes raised by the embedded code. -/
inductive PyErr where
  | keyError : PyErr
  | valueError : PyErr
  | typeError : PyErr
  | notImplementedError : PyErr
  | exception : PyErr
deriving DecidableEq

/-- Python `d.pop(k)` on a Python dict: the value at `k` together with the dict with
that (first) entry removed; `none` models the `KeyError` of a missing key. -/
def popKey (d : PyDict) (k : String) : Option (Val × PyDict) :=
  match d with
  | [] => none
  | (k2, v) :: rest =>
    if k2 = k then some (v, rest)
    else
      match popKey rest k with
      | none => none
      | some (v2, rest2) => some (v2, (k2, v) :: rest2)

/-- Replace the value of the first entry with key `k` (Python dict update in
place: the position of the key is kept). -/
def updateFirst (d : PyDict) (k : String) (v : Val) : PyDict :=
  match d with
  | [] => []
  | (k2, v2) :: rest =>
    if k2 = k then (k2, v) :: rest
    else (k2, v2) :: updateFirst rest k v

/-- Python `dict(items)` on a list of key/value pairs: a later duplicate key
overwrites the value but keeps the position of the first occurrence. -/
def dictOfItems (items : List (String × Val)) : PyDict :=
  items.foldl
    (fun acc kv =>
      if (acc.lookup kv.1).isSome then updateFirst acc kv.1 kv.2
      else acc ++ [kv])
    []

/-- The key composed by `flatten` for a child key `k` below `parent_key`
(`new_key = parent_key + sep + k if parent_key else k`). -/
def composeKey (parent_key : String) (sep : String) (k : String) : String :=
  if parent_key = "" then k else parent_key ++ sep ++ k

/-- The item list accumulated by the loop of `flatten`: a nested dict value
recurses with the composed key, any other value is kept as a leaf. -/
def flattenItems (d : PyDict) (parent_key : String) (sep : String) :
    List (String × Val) :=
  match d with
  | [] => []
  | (k, v) :: rest =>
    (match v with
     | Val.vdict d2 => flattenItems d2 (composeKey parent_key sep k) sep
     | _ => [(composeKey parent_key sep k, v)]) ++ flattenItems rest parent_key sep
termination_by sizeOf d
decreasing_by
  · simp only [Prod.mk.sizeOf_spec, Val.vdict.sizeOf_spec, List.cons.sizeOf_spec]
    omega
  · simp only [List.cons.sizeOf_spec]
    omega

/-- Python `flatten(d, parent_key, sep)` from `export_results/helper.py`: flattens a
nested dict into a single-level dict (`dict(items)` over the accumulated
items). -/
def flatten (d : PyDict) (parent_key : String) (sep : String) : PyDict :=
  dictOfItems (flattenItems d parent_key sep)

/-- The apostrophe character (Python's default string-repr quote). -/
def sq : Char := Char.ofNat 39

/-- The double-quote character. -/
def dq : Char := Char.ofNat 34

/-- Escape a string for a Python string repr quoted by `quote`: backslashes
and the quote character are escaped. -/
def escPy (quote : Char) (s : String) : String :=
  String.mk (s.data.foldr
    (fun c acc =>
      if c = Char.ofNat 92 then Char.ofNat 92 :: Char.ofNat 92 :: acc
      else if c = quote then Char.ofNat 92 :: c :: acc
      else c :: acc) [])

/-- Python `repr` of a string: single quotes by default, double quotes when
the string holds a single quote but no double quote. -/
def pyStrRepr (s : String) : String :=
  if s.data.contains sq ∧ ¬ s.data.contains dq then
    String.singleton dq ++ escPy dq s ++ String.singleton dq
  else
    String.singleton sq ++ escPy sq s ++ String.singleton sq

mutual
/-- Python `repr`/`str` of an embedded value. -/
def pyStr : Val → String
  | Val.vint i => toString i
  | Val.vstr s => pyStrRepr s
  | Val.vbool b => if b then "True" else "False"
  | Val.vnone => "None"
  | Val.vlist xs => "[" ++ pyStrList xs ++ "]"
  | Val.vdict d => "\x7b" ++ pyStrEntries d ++ "\x7d"

/-- The comma-separated reprs of the elements of a Python list. -/
def pyStrList : List Val → String
  | [] => ""
  | [x] => pyStr x
  | x :: rest => pyStr x ++ ", " ++ pyStrList rest

/-- The comma-separated `key: value` reprs of the entries of a Python dict. -/
def pyStrEntries : List (String × Val) → String
  | [] => ""
  | [(k, v)] => pyStrRepr k ++ ": " ++ pyStr v
  | (k, v) :: rest => pyStrRepr k ++ ": " ++ pyStr v ++ ", " ++ pyStrEntries rest
end

/-- Python `s.replace(" ", "")`: removes every space character. -/
def removeSpaces (s : String) : String :=
  String.mk (s.data.filter (fun c => c ≠ ' '))

/-- The five volatile fields popped by `run_config_to_filename`, in pop
order. -/
def volatileFields : List String :=
  ["unique_id", "overwrite_sim_results", "overwrite_visualisation",
   "show_snns", "export_snns"]

/-- Pop each key of `ks` in turn; a missing key raises `KeyError`. -/
def popMany (d : PyDict) (ks : List String) : Except PyErr PyDict :=
  match ks with
  | [] => Except.ok d
  | k :: rest =>
    match popKey d k with
    | none => Except.error PyErr.keyError
    | some (_, d2) => popMany d2 rest

/-- Python `run_config_to_filename(run_config)` from `export_results/helper.py`:
deep-copies the config, pops the five volatile fields, stringifies the
flattened dict, strips spaces, and raises when the result is longer than 256
characters. -/
def run_config_to_filename (run_config : PyDict) : Except PyErr String :=
  match popMany run_config volatileFields with
  | Except.error e => Except.error e
  | Except.ok stripped_run_config =>
    let filename := pyStr (Val.vdict (flatten stripped_run_config "" "_"))
    let filename := removeSpaces filename
    if filename.length > 256 then Except.error PyErr.exception
    else Except.ok filename

mutual
/-- Python `==` on embedded values: dicts compare order-insensitively (same
number of entries, every entry of the left dict matches by key in the right),
lists compare elementwise. -/
def pyEq : Val → Val → Bool
  | Val.vint a, Val.vint b => a == b
  | Val.vstr a, Val.vstr b => a == b
  | Val.vbool a, Val.vbool b => a == b
  | Val.vnone, Val.vnone => true
  | Val.vlist xs, Val.vlist ys => pyEqList xs ys
  | Val.vdict d1, Val.vdict d2 => d1.length == d2.length && pyEqEntries d1 d2
  | _, _ => false

/-- Elementwise Python `==` on lists. -/
def pyEqList : List Val → List Val → Bool
  | [], [] => true
  | x :: xs, y :: ys => pyEq x y && pyEqList xs ys
  | _, _ => false

/-- Every entry of `d1` has a `pyEq`-equal value under its key in `d2`. -/
def pyEqEntries : List (String × Val) → List (String × Val) → Bool
  | [], _ => true
  | (k, v) :: rest, d2 =>
    (match d2.lookup k with
     | some w => pyEq v w
     | none => false) && pyEqEntries rest d2
end

/-- Python `==` on `Option Val` (used to compare `d.get(k)`-style lookups). -/
def pyEqOpt : Option Val → Option Val → Bool
  | none, none => true
  | some v, some w => pyEq v w
  | _, _ => false

/-- Python `if k in d: d.pop(k)`: remove the entry at `k` when present. -/
def popIfPresent (d : PyDict) (k : String) : PyDict :=
  match popKey d k with
  | none => d
  | some (_, d2) => d2

/-- Python `dicts_are_equal(left, right, without_unique_id)` from
`snncompare/helper.py`: deep-copies both dicts, pops `unique_id` from each
when present, and compares with Python `==`. -/
def dicts_are_equal (left right : PyDict) (without_unique_id : Bool) : Bool :=
  if without_unique_id then
    pyEq (Val.vdict (popIfPresent left "unique_id"))
      (Val.vdict (popIfPresent right "unique_id"))
  else pyEq (Val.vdict left) (Val.vdict right)

/-- Modelled from the spec: the collaborator `has_adaptation(run_config) ->
bool` (its module `graph_generation/stage_1_get_input_graphs.py` is not part
of the sources under study); adaptation is configured iff the `adaptation`
field is present and not `None`. -/
def has_adaptation (run_config : PyDict) : Bool :=
  match run_config.lookup "adaptation" with
  | some Val.vnone => false
  | some _ => true
  | none => false

/-- Modelled from the spec: the collaborator `has_radiation(run_config) ->
bool` (its module is not part of the sources under study); radiation is
configured iff the `radiation` field is present and not `None`. -/
def has_radiation (run_config : PyDict) : Bool :=
  match run_config.lookup "radiation" with
  | some Val.vnone => false
  | some _ => true
  | none => false

/-- Python `get_expected_stage_1_graph_names(run_config)` from
`export_results/verify_stage_1_graphs.py`. -/
def get_expected_stage_1_graph_names (run_config : PyDict) : List String :=
  let expected_graph_names := ["input_graph", "snn_algo_graph"]
  let expected_graph_names :=
    if has_adaptation run_config then expected_graph_names ++ ["adapted_snn_graph"]
    else expected_graph_names
  if has_radiation run_config then
    let expected_graph_names := expected_graph_names ++ ["rad_snn_algo_graph"]
    if has_adaptation run_config then expected_graph_names ++ ["rad_adapted_snn_graph"]
    else expected_graph_names
  else expected_graph_names

/-- Whether a value is a Python list (the `isinstance(..., list)` check). -/
def Val.isList : Val → Bool
  | Val.vlist _ => true
  | _ => false

/-- Python `x in l` membership via `==`. -/
def pyContains (l : List Val) (x : Val) : Bool :=
  l.any (fun y => pyEq x y)

/-- Python `add_stage_completion_to_graph(snn, stage_index)` from
`snncompare/helper.py`, on the `completed_stages` graph attribute (`none`
when the attribute is absent).  Returns the attribute after the call together
with the exception raised, if any; mutations performed before a raise are
kept, matching the Python in-place updates (stage 1 first initialises the
attribute to `[]`, then the common membership check and append run). -/
def add_stage_completion_to_graph (attr : Option Val) (stage_index : Int) :
    Option Val × Option PyErr :=
  if stage_index = 1 then
    match attr with
    | some _ => (attr, some PyErr.valueError)
    | none =>
      let l : List Val := []
      if pyContains l (Val.vint stage_index) then
        (some (Val.vlist l), some PyErr.valueError)
      else (some (Val.vlist (l ++ [Val.vint stage_index])), none)
  else
    match attr with
    | none => (none, some PyErr.keyError)
    | some v =>
      if ¬ v.isList then (attr, some PyErr.typeError)
      else
        match v with
        | Val.vlist l =>
          if pyContains l (Val.vint stage_index) then
            (attr, some PyErr.valueError)
          else (some (Val.vlist (l ++ [Val.vint stage_index])), none)
        | _ => (attr, some PyErr.typeError)

/-- A sequence of calls to `add_stage_completion_to_graph`, all succeeding:
`none` when any call raises, otherwise the final attribute value. -/
def applyStages (attr : Option Val) (idxs : List Int) : Option (Option Val) :=
  match idxs with
  | [] => some attr
  | idx :: rest =>
    match add_stage_completion_to_graph attr idx with
    | (attr2, none) => applyStages attr2 rest
    | (_, some _) => none

/-- Python `get_snn_graph_name(with_adaptation, with_radiation)` from
`snncompare/helper.py`. -/
def get_snn_graph_name (with_adaptation with_radiation : Bool) : String :=
  if with_adaptation then
    if with_radiation then "rad_adapted_snn_graph"
    else "adapted_snn_graph"
  else
    if with_radiation then "rad_snn_algo_graph"
    else "snn_algo_graph"

/-- Python `get_with_adaptation_bool(graph_name)` from `snncompare/helper.py`. -/
def get_with_adaptation_bool (graph_name : String) : Except PyErr Bool :=
  if graph_name ∈ ["adapted_snn_graph", "rad_adapted_snn_graph"] then
    Except.ok true
  else if graph_name ∈ ["snn_algo_graph", "rad_snn_algo_graph"] then
    Except.ok false
  else Except.error PyErr.notImplementedError

/-- Python `get_with_radiation_bool(graph_name)` from `snncompare/helper.py`. -/
def get_with_radiation_bool (graph_name : String) : Except PyErr Bool :=
  if graph_name ∈ ["rad_snn_algo_graph", "rad_adapted_snn_graph"] then
    Except.ok true
  else if graph_name ∈ ["snn_algo_graph", "adapted_snn_graph"] then
    Except.ok false
  else Except.error PyErr.notImplementedError

/-- A networkx graph, reduced to its graph-attribute dict (the only part the
embedded functions read). -/
structure NxGraph where
  graph : PyDict

/-- Python `get_expected_image_paths_stage_3(graph_names, input_graph, run_config,
extensions)` from `export_results/helper.py`.  The collaborator
`get_sim_duration` (its module is not part of the sources under study; the
spec gives only its signature `get_sim_duration(graph, run_config) -> int`)
is passed as the argument `get_sim_duration`.  The imperative append loops
are rendered as left folds. -/
def get_expected_image_paths_stage_3 (graph_names : List String)
    (input_graph : NxGraph) (run_config : PyDict) (extensions : List String)
    (get_sim_duration : NxGraph → PyDict → Nat) :
    Except PyErr (List String) :=
  match run_config_to_filename run_config with
  | Except.error e => Except.error e
  | Except.ok filename =>
    if ¬ (input_graph.graph.lookup "alg_props").isSome then
      Except.error PyErr.exception
    else
      let sim_duration := get_sim_duration input_graph run_config
      let image_dir := "latex/Images/graphs/"
      Except.ok (extensions.foldl
        (fun acc extension =>
          graph_names.foldl
            (fun acc2 graph_name =>
              if graph_name = "input_graph" then
                acc2 ++ ["results/" ++ graph_name ++ "_" ++ filename ++ extension]
              else
                (List.range sim_duration).foldl
                  (fun acc3 t =>
                    acc3 ++ [image_dir ++ graph_name ++ "_" ++ filename ++
                      "_" ++ toString t ++ extension]) acc2) acc) [])

/-- The stage-1 result bundle as loaded from the store: the persisted run
config (as the `__dict__` of the re-built `Run_config`) and the dict of named
graphs. -/
structure StageOneDict where
  run_config : PyDict
  graphs_dict : PyDict

/-- Python `expected_graphs_are_in_dict(run_config, graphs, stage)` from
`export_results/verify_stage_1_graphs.py`, for stage 1. -/
def expected_graphs_are_in_dict (run_config : PyDict) (graphs : PyDict) :
    Bool :=
  (get_expected_stage_1_graph_names run_config).all
    (fun name => (graphs.lookup name).isSome)

/-- Python `load_results_stage_1(run_config)` from
`import_results/stage_1_load_input_graphs.py`.  Modelled from the spec: the
filename/extension handling and `load_results_from_json` (whose modules are
not part of the sources under study) form the Result Store collaborator; the
bundle it returns is passed as `loaded`.  The function then verifies the
loaded run config against the requested one with `dicts_are_equal` (raising
the run-config-mismatch `Exception` on inequality), verifies the expected
stage-1 graphs are present (raising otherwise), and returns the bundle. -/
def load_results_stage_1 (run_config : PyDict) (loaded : StageOneDict) :
    Except PyErr StageOneDict :=
  if ¬ dicts_are_equal run_config loaded.run_config true then
    Except.error PyErr.exception
  else if ¬ expected_graphs_are_in_dict run_config loaded.graphs_dict then
    Except.error PyErr.exception
  else Except.ok loaded

/-- Whether a value is a Python mapping (the `isinstance(v, MutableMapping)`
test of `flatten`). -/
def Val.isDict : Val → Bool
  | Val.vdict _ => true
  | _ => false

/-- Two ordered dicts that agree entry-by-entry (same keys in the same
order), except that at keys in `vol` the two values may differ. -/
inductive AgreeExcept (vol : List String) : PyDict → PyDict → Prop
  | nil : AgreeExcept vol [] []
  | cons_eq (k : String) (v : Val) {t1 t2 : PyDict} (h : AgreeExcept vol t1 t2) :
      AgreeExcept vol ((k, v) :: t1) ((k, v) :: t2)
  | cons_vol (k : String) (v1 v2 : Val) (hk : k ∈ vol) {t1 t2 : PyDict}
      (h : AgreeExcept vol t1 t2) :
      AgreeExcept vol ((k, v1) :: t1) ((k, v2) :: t2)

/-- A concrete run configuration used to instantiate the theorems. -/
def cfgA : PyDict :=
  [("unique_id", Val.vstr "u1"), ("overwrite_sim_results", Val.vbool false),
   ("overwrite_visualisation", Val.vbool false), ("show_snns", Val.vbool false),
   ("export_snns", Val.vbool true), ("seed", Val.vint 5), ("size", Val.vint 3)]

/-- The configuration `cfgA` with every volatile value changed. -/
def cfgB : PyDict :=
  [("unique_id", Val.vstr "u2"), ("overwrite_sim_results", Val.vbool true),
   ("overwrite_visualisation", Val.vbool false), ("show_snns", Val.vbool true),
   ("export_snns", Val.vbool false), ("seed", Val.vint 5), ("size", Val.vint 3)]

/-- The configuration `cfgA` with its two non-volatile fields reordered. -/
def cfgAReordered : PyDict :=
  [("unique_id", Val.vstr "u1"), ("overwrite_sim_results", Val.vbool false),
   ("overwrite_visualisation", Val.vbool false), ("show_snns", Val.vbool false),
   ("export_snns", Val.vbool true), ("size", Val.vint 3), ("seed", Val.vint 5)]

/-- A configuration with a nested `alg` dict. -/
def cfgNested : PyDict :=
  [("unique_id", Val.vstr "u1"), ("overwrite_sim_results", Val.vbool false),
   ("overwrite_visualisation", Val.vbool false), ("show_snns", Val.vbool false),
   ("export_snns", Val.vbool true), ("alg", Val.vdict [("m", Val.vint 2)])]

/-- The configuration `cfgNested` re-nested: the leaf is stored directly
under the composed key, so both flatten to the same item sequence. -/
def cfgPreFlattened : PyDict :=
  [("unique_id", Val.vstr "u1"), ("overwrite_sim_results", Val.vbool false),
   ("overwrite_visualisation", Val.vbool false), ("show_snns", Val.vbool false),
   ("export_snns", Val.vbool true), ("alg_m", Val.vint 2)]

/-- The volatile-stripped form of `cfgA` (what the five pops leave). -/
def cfgAStripped : PyDict :=
  [("seed", Val.vint 5), ("size", Val.vint 3)]

/-- The filename derived from `cfgA`: the space-stripped serialization of its
stripped, flattened form (used to name that value in closed statements). -/
def cfgAFilename : String :=
  removeSpaces (pyStr (Val.vdict (flatten cfgAStripped "" "_")))

/-- The volatile-stripped form of `cfgAReordered`. -/
def cfgAReorderedStripped : PyDict :=
  [("size", Val.vint 3), ("seed", Val.vint 5)]

/-- The filename derived from `cfgAReordered`. -/
def cfgAReorderedFilename : String :=
  removeSpaces (pyStr (Val.vdict (flatten cfgAReorderedStripped "" "_")))

/-- The nested-dict example flattened in the spec. -/
def exampleNested : PyDict :=
  [("a", Val.vint 1),
   ("c", Val.vdict [("a", Val.vint 2),
                    ("b", Val.vdict [("x", Val.vint 5), ("y", Val.vint 10)])])]

/-- A stage-1 bundle whose stored run config is `cfgA` with another seed. -/
def loadedOtherSeed : StageOneDict :=
  ⟨[("unique_id", Val.vstr "u9"), ("overwrite_sim_results", Val.vbool false),
    ("overwrite_visualisation", Val.vbool false), ("show_snns", Val.vbool false),
    ("export_snns", Val.vbool true), ("seed", Val.vint 7), ("size", Val.vint 3)],
   [("input_graph", Val.vnone), ("snn_algo_graph", Val.vnone)]⟩

/-- Membership in `updateFirst` comes from the original dict or is the
updated pair. -/
theorem mem_updateFirst {kv : String × Val} {k : String} {v : Val} :
    ∀ {d : PyDict}, kv ∈ updateFirst d k v → kv ∈ d ∨ kv = (k, v) := by
  intro d
  induction d with
  | nil => intro h; cases h
  | cons hd tl ih =>
    obtain ⟨k2, v2⟩ := hd
    unfold updateFirst
    by_cases hk : k2 = k
    · rw [if_pos hk]
      intro h
      rcases List.mem_cons.1 h with h | h
      · exact Or.inr (by rw [h, hk])
      · exact Or.inl (List.mem_cons_of_mem _ h)
    · rw [if_neg hk]
      intro h
      rcases List.mem_cons.1 h with h | h
      · exact Or.inl (by rw [h]; exact List.mem_cons_self _ _)
      · rcases ih h with h2 | h2
        · exact Or.inl (List.mem_cons_of_mem _ h2)
        · exact Or.inr h2

/-- Every entry of `dict(items)` is one of the items. -/
theorem mem_dictOfItems {kv : String × Val} {items : List (String × Val)}
    (h : kv ∈ dictOfItems items) : kv ∈ items := by
  suffices haux : ∀ (its : List (String × Val)) (acc : PyDict),
      kv ∈ its.foldl
        (fun acc2 kv2 =>
          if (acc2.lookup kv2.1).isSome then updateFirst acc2 kv2.1 kv2.2
          else acc2 ++ [kv2]) acc →
      kv ∈ acc ∨ kv ∈ its by
    rcases haux items [] h with h2 | h2
    · cases h2
    · exact h2
  intro its
  induction its with
  | nil => intro acc h2; exact Or.inl h2
  | cons hd tl ih =>
    intro acc h2
    rw [List.foldl_cons] at h2
    rcases ih _ h2 with h3 | h3
    · by_cases hl : (acc.lookup hd.1).isSome
      · rw [if_pos hl] at h3
        rcases mem_updateFirst h3 with h4 | h4
        · exact Or.inl h4
        · exact Or.inr (by rw [h4]; exact List.mem_cons_self _ _)
      · rw [if_neg hl] at h3
        rcases List.mem_append.1 h3 with h4 | h4
        · exact Or.inl h4
        · exact Or.inr (by
            rcases List.mem_singleton.1 h4 with h5
            rw [h5]
            exact List.mem_cons_self _ _)
    · exact Or.inr (List.mem_cons_of_mem _ h3)

/-- Unfolding lemma: `flattenItems` on the empty dict. -/
theorem flattenItems_nil (parent_key sep : String) :
    flattenItems [] parent_key sep = [] := by
  simp [flattenItems]

/-- Unfolding lemma: `flattenItems` on a cons cell. -/
theorem flattenItems_cons (k : String) (v : Val) (tl : PyDict)
    (parent_key sep : String) :
    flattenItems ((k, v) :: tl) parent_key sep =
      (match v with
       | Val.vdict d2 => flattenItems d2 (composeKey parent_key sep k) sep
       | _ => [(composeKey parent_key sep k, v)]) ++
        flattenItems tl parent_key sep := by
  cases v <;> simp [flattenItems]

/-- Every item accumulated by `flatten` is either a leaf of the top level
under its composed key, or comes from recursively flattening a nested dict
under the composed key. -/
theorem mem_flattenItems {parent_key sep : String} {kv : String × Val} :
    ∀ {d : PyDict}, kv ∈ flattenItems d parent_key sep →
    ∃ k v, (k, v) ∈ d ∧
      ((v.isDict = false ∧ kv = (composeKey parent_key sep k, v)) ∨
       (∃ d2, v = Val.vdict d2 ∧
         kv ∈ flattenItems d2 (composeKey parent_key sep k) sep)) := by
  intro d
  induction d with
  | nil => intro h; rw [flattenItems_nil] at h; cases h
  | cons hd tl ih =>
    obtain ⟨k, v⟩ := hd
    intro h
    rw [flattenItems_cons] at h
    rcases List.mem_append.1 h with h2 | h2
    · refine ⟨k, v, List.mem_cons_self _ _, ?_⟩
      cases v with
      | vdict d2 => exact Or.inr ⟨d2, rfl, h2⟩
      | vint i => exact Or.inl ⟨rfl, List.mem_singleton.1 h2⟩
      | vstr s => exact Or.inl ⟨rfl, List.mem_singleton.1 h2⟩
      | vbool b => exact Or.inl ⟨rfl, List.mem_singleton.1 h2⟩
      | vnone => exact Or.inl ⟨rfl, List.mem_singleton.1 h2⟩
      | vlist xs => exact Or.inl ⟨rfl, List.mem_singleton.1 h2⟩
    · rcases ih h2 with ⟨k2, v2, hmem, hrest⟩
      exact ⟨k2, v2, List.mem_cons_of_mem _ hmem, hrest⟩

/-- No value accumulated by `flatten` is itself a mapping. -/
theorem flattenItems_leaf_not_dict :
    ∀ (n : Nat) (d : PyDict) (parent_key sep : String) (kv : String × Val),
      sizeOf d ≤ n → kv ∈ flattenItems d parent_key sep →
      kv.2.isDict = false := by
  intro n
  induction n with
  | zero =>
    intro d p s kv hn h
    cases d with
    | nil => rw [flattenItems_nil] at h; cases h
    | cons hd tl => simp at hn
  | succ m ih =>
    intro d p s kv hn h
    cases d with
    | nil => rw [flattenItems_nil] at h; cases h
    | cons hd tl =>
      obtain ⟨k, v⟩ := hd
      rw [flattenItems_cons] at h
      rcases List.mem_append.1 h with h2 | h2
      · cases v with
        | vdict d2 =>
          refine ih d2 _ _ _ ?_ h2
          simp only [List.cons.sizeOf_spec, Prod.mk.sizeOf_spec,
            Val.vdict.sizeOf_spec] at hn ⊢
          omega
        | vint i => rw [List.mem_singleton.1 h2]; rfl
        | vstr s2 => rw [List.mem_singleton.1 h2]; rfl
        | vbool b => rw [List.mem_singleton.1 h2]; rfl
        | vnone => rw [List.mem_singleton.1 h2]; rfl
        | vlist xs => rw [List.mem_singleton.1 h2]; rfl
      · refine ih tl _ _ _ ?_ h2
        simp only [List.cons.sizeOf_spec] at hn
        omega

/-- C4: `flatten` flattens the spec's nested example to exactly the expected
single-level dict; in general every produced value is a non-mapping leaf kept
intact, and every produced entry sits under a `parent + sep + child` composed
key (a top-level leaf directly, or an entry of the recursive flattening of a
nested dict under its composed key). -/
theorem flatten_contract :
    flatten exampleNested "" "_" =
      [("a", Val.vint 1), ("c_a", Val.vint 2), ("c_b_x", Val.vint 5),
       ("c_b_y", Val.vint 10)] ∧
    (∀ (d : PyDict) (parent_key sep : String) (kv : String × Val),
       kv ∈ flatten d parent_key sep → kv.2.isDict = false) ∧
    (∀ (d : PyDict) (parent_key sep : String) (kv : String × Val),
       kv ∈ flatten d parent_key sep →
       ∃ k v, (k, v) ∈ d ∧
         ((v.isDict = false ∧ kv = (composeKey parent_key sep k, v)) ∨
          (∃ d2, v = Val.vdict d2 ∧
            kv ∈ flattenItems d2 (composeKey parent_key sep k) sep))) := by
  refine ⟨?_, ?_, ?_⟩
  · simp [exampleNested, flatten, flattenItems, dictOfItems, updateFirst,
      composeKey]
  · intro d p s kv h
    exact flattenItems_leaf_not_dict (sizeOf d) d p s kv le_rfl
      (mem_dictOfItems h)
  · intro d p s kv h
    exact mem_flattenItems (mem_dictOfItems h)

/-- Witness for C4: the leaf `("a", 1)` of the flattened example is a
non-mapping value. -/
theorem flatten_contract_witness :
    (Val.vint 1).isDict = false :=
  flatten_contract.2.1 exampleNested "" "_" ("a", Val.vint 1) (by
    simp [exampleNested, flatten, flattenItems, dictOfItems, updateFirst,
      composeKey])

/-- Evaluation rule: when the pops succeed and the derived string is short
enough, `run_config_to_filename` returns exactly that string. -/
theorem run_config_to_filename_eval (rc stripped : PyDict)
    (hp : popMany rc volatileFields = Except.ok stripped)
    (hlen :
      (removeSpaces (pyStr (Val.vdict (flatten stripped "" "_")))).length ≤
        256) :
    run_config_to_filename rc =
      Except.ok (removeSpaces (pyStr (Val.vdict (flatten stripped "" "_")))) := by
  unfold run_config_to_filename
  rw [hp]
  dsimp only
  rw [if_neg (by omega)]

/-- The filename derived from `cfgA` is at most 256 characters long. -/
theorem cfgAFilename_short : cfgAFilename.length ≤ 256 := by
  unfold cfgAFilename
  rw [show flatten cfgAStripped "" "_" = cfgAStripped from by
    simp [cfgAStripped, flatten, flattenItems, dictOfItems, updateFirst,
      composeKey]]
  simp only [cfgAStripped, pyStr, pyStrEntries, pyStrList, pyStrRepr, escPy,
    sq, dq, removeSpaces]
  decide

/-- The filename derived from `cfgAReordered` is at most 256 characters
long. -/
theorem cfgAReorderedFilename_short : cfgAReorderedFilename.length ≤ 256 := by
  unfold cfgAReorderedFilename
  rw [show flatten cfgAReorderedStripped "" "_" = cfgAReorderedStripped from by
    simp [cfgAReorderedStripped, flatten, flattenItems, dictOfItems,
      updateFirst, composeKey]]
  simp only [cfgAReorderedStripped, pyStr, pyStrEntries, pyStrList, pyStrRepr,
    escPy, sq, dq, removeSpaces]
  decide

/-- C2: `run_config_to_filename` either returns the derived string, whose
length is at most 256, or raises when the derived string exceeds 256
characters; it never returns a longer string and never truncates (the
returned string is exactly the space-stripped serialization of the flattened
stripped config). -/
theorem run_config_to_filename_length_contract :
    (∀ (run_config : PyDict) (s : String),
        run_config_to_filename run_config = Except.ok s → s.length ≤ 256) ∧
    (∀ (run_config stripped : PyDict),
        popMany run_config volatileFields = Except.ok stripped →
        (((removeSpaces (pyStr (Val.vdict (flatten stripped "" "_")))).length ≤ 256 →
            run_config_to_filename run_config =
              Except.ok (removeSpaces (pyStr (Val.vdict (flatten stripped "" "_"))))) ∧
          (256 < (removeSpaces (pyStr (Val.vdict (flatten stripped "" "_")))).length →
            run_config_to_filename run_config = Except.error PyErr.exception))) := by
  constructor
  · intro rc s h
    unfold run_config_to_filename at h
    cases hp : popMany rc volatileFields with
    | error e => rw [hp] at h; cases h
    | ok st =>
      rw [hp] at h
      dsimp only at h
      split at h
      · cases h
      · cases h
        omega
  · intro rc st hp
    constructor
    · intro hle
      unfold run_config_to_filename
      rw [hp]
      dsimp only
      rw [if_neg (by omega)]
    · intro hgt
      unfold run_config_to_filename
      rw [hp]
      dsimp only
      rw [if_pos hgt]

/-- Witness for C2 at the concrete config `cfgA`. -/
theorem run_config_to_filename_length_contract_witness :
    run_config_to_filename cfgA = Except.ok cfgAFilename ∧
      cfgAFilename.length ≤ 256 := by
  have hf : run_config_to_filename cfgA = Except.ok cfgAFilename :=
    (run_config_to_filename_length_contract.2 cfgA cfgAStripped rfl).1
      cfgAFilename_short
  exact ⟨hf, run_config_to_filename_length_contract.1 cfgA cfgAFilename hf⟩

/-- C5: the expected stage-1 graph names are exactly `input_graph` and
`snn_algo_graph` when neither adaptation nor radiation is configured, exactly
the five names when both are configured, and `rad_adapted_snn_graph` appears
only when `adapted_snn_graph` does. -/
theorem get_expected_stage_1_graph_names_contract (run_config : PyDict) :
    (has_adaptation run_config = false → has_radiation run_config = false →
      get_expected_stage_1_graph_names run_config =
        ["input_graph", "snn_algo_graph"]) ∧
    (has_adaptation run_config = true → has_radiation run_config = true →
      get_expected_stage_1_graph_names run_config =
        ["input_graph", "snn_algo_graph", "adapted_snn_graph",
         "rad_snn_algo_graph", "rad_adapted_snn_graph"]) ∧
    ("rad_adapted_snn_graph" ∈ get_expected_stage_1_graph_names run_config →
      "adapted_snn_graph" ∈ get_expected_stage_1_graph_names run_config) := by
  unfold get_expected_stage_1_graph_names
  cases ha : has_adaptation run_config <;> cases hr : has_radiation run_config <;>
    simp

/-- Witness for C5 at the two scenario configs of the spec. -/
theorem get_expected_stage_1_graph_names_contract_witness :
    get_expected_stage_1_graph_names
        [("adaptation", Val.vnone), ("radiation", Val.vnone)] =
      ["input_graph", "snn_algo_graph"] ∧
    get_expected_stage_1_graph_names
        [("adaptation", Val.vdict [("redundancy", Val.vint 1)]),
         ("radiation", Val.vdict [("neuron_death", Val.vint 1)])] =
      ["input_graph", "snn_algo_graph", "adapted_snn_graph",
       "rad_snn_algo_graph", "rad_adapted_snn_graph"] :=
  ⟨(get_expected_stage_1_graph_names_contract _).1 rfl rfl,
   (get_expected_stage_1_graph_names_contract _).2.1 rfl rfl⟩

/-- C10: `get_snn_graph_name` lands in the four SNN graph names, the two
boolean-recovery functions invert it, and both raise `NotImplementedError`
on any other name. -/
theorem get_snn_graph_name_round_trip :
    (∀ (with_adaptation with_radiation : Bool),
        get_snn_graph_name with_adaptation with_radiation ∈
          ["snn_algo_graph", "adapted_snn_graph", "rad_snn_algo_graph",
           "rad_adapted_snn_graph"] ∧
        get_with_adaptation_bool (get_snn_graph_name with_adaptation with_radiation) =
          Except.ok with_adaptation ∧
        get_with_radiation_bool (get_snn_graph_name with_adaptation with_radiation) =
          Except.ok with_radiation) ∧
    (∀ graph_name : String,
        graph_name ∉
          ["snn_algo_graph", "adapted_snn_graph", "rad_snn_algo_graph",
           "rad_adapted_snn_graph"] →
        get_with_adaptation_bool graph_name =
          Except.error PyErr.notImplementedError ∧
        get_with_radiation_bool graph_name =
          Except.error PyErr.notImplementedError) := by
  constructor
  · intro wa wr
    cases wa <;> cases wr <;> exact ⟨by decide, rfl, rfl⟩
  · intro g hg
    simp only [List.mem_cons, List.not_mem_nil, or_false, not_or] at hg
    obtain ⟨h1, h2, h3, h4⟩ := hg
    unfold get_with_adaptation_bool get_with_radiation_bool
    rw [if_neg (by simp [h2, h4]), if_neg (by simp [h1, h3]),
      if_neg (by simp [h3, h4]), if_neg (by simp [h1, h2])]
    exact ⟨rfl, rfl⟩

/-- Witness for C10: the round trip at `(true, false)` and the error at
`input_graph`. -/
theorem get_snn_graph_name_round_trip_witness :
    (get_snn_graph_name true false ∈
      ["snn_algo_graph", "adapted_snn_graph", "rad_snn_algo_graph",
       "rad_adapted_snn_graph"] ∧
     get_with_adaptation_bool (get_snn_graph_name true false) = Except.ok true ∧
     get_with_radiation_bool (get_snn_graph_name true false) = Except.ok false) ∧
    get_with_adaptation_bool "input_graph" =
      Except.error PyErr.notImplementedError ∧
    get_with_radiation_bool "input_graph" =
      Except.error PyErr.notImplementedError :=
  ⟨get_snn_graph_name_round_trip.1 true false,
   get_snn_graph_name_round_trip.2 "input_graph" (by decide)⟩

/-- C3 counterexample: `cfgA` and `cfgAReordered` are equal as nested
mappings (Python `==`) but are supplied in different field orders, and
`run_config_to_filename` returns different keys for them. -/
theorem run_config_to_filename_reorder_counterexample :
    pyEq (Val.vdict cfgA) (Val.vdict cfgAReordered) = true ∧
    run_config_to_filename cfgA ≠ run_config_to_filename cfgAReordered := by
  constructor
  · rfl
  · intro h
    rw [run_config_to_filename_eval cfgA cfgAStripped rfl cfgAFilename_short,
      run_config_to_filename_eval cfgAReordered cfgAReorderedStripped rfl
        cfgAReorderedFilename_short] at h
    injection h with h2
    revert h2
    rw [show flatten cfgAStripped "" "_" = cfgAStripped from by
        simp [cfgAStripped, flatten, flattenItems, dictOfItems, updateFirst,
          composeKey],
      show flatten cfgAReorderedStripped "" "_" = cfgAReorderedStripped from by
        simp [cfgAReorderedStripped, flatten, flattenItems, dictOfItems,
          updateFirst, composeKey]]
    simp only [cfgAStripped, cfgAReorderedStripped, pyStr, pyStrEntries,
      pyStrList, pyStrRepr, escPy, sq, dq, removeSpaces]
    decide

/-- C3 amended: the derived key is not stable under field reordering; it is
determined by the volatile-stripped config's flattened insertion-ordered
form: two configs whose stripped dicts flatten identically get identical
results. -/
theorem run_config_to_filename_determined_by_flatten
    (R1 R2 S1 S2 : PyDict)
    (h1 : popMany R1 volatileFields = Except.ok S1)
    (h2 : popMany R2 volatileFields = Except.ok S2)
    (hf : flatten S1 "" "_" = flatten S2 "" "_") :
    run_config_to_filename R1 = run_config_to_filename R2 := by
  unfold run_config_to_filename
  rw [h1, h2]
  dsimp only
  rw [hf]

/-- Witness for the amended C3: a nested config and its pre-flattened form
derive the same key. -/
theorem run_config_to_filename_determined_by_flatten_witness :
    run_config_to_filename cfgNested = run_config_to_filename cfgPreFlattened :=
  run_config_to_filename_determined_by_flatten cfgNested cfgPreFlattened
    [("alg", Val.vdict [("m", Val.vint 2)])] [("alg_m", Val.vint 2)]
    rfl rfl
    (by simp [flatten, flattenItems, dictOfItems, updateFirst, composeKey])

/-- C7 counterexample: marking stage 2 on a fresh graph (no
`completed_stages` attribute) raises `KeyError`, not `TypeError`. -/
theorem add_stage_two_fresh_graph_counterexample :
    add_stage_completion_to_graph none 2 = (none, some PyErr.keyError) ∧
    some PyErr.keyError ≠ some PyErr.typeError :=
  ⟨rfl, by decide⟩

/-- C7 amended: marking stage 1 when `completed_stages` already exists raises
`ValueError`; marking a stage other than 1 on a fresh graph raises `KeyError`
(a `TypeError` is raised only when the attribute exists with a non-list
value); in every error case the attribute is left unmodified. -/
theorem add_stage_completion_error_contract :
    (∀ v : Val,
        add_stage_completion_to_graph (some v) 1 =
          (some v, some PyErr.valueError)) ∧
    (∀ i : Int, i ≠ 1 →
        add_stage_completion_to_graph none i = (none, some PyErr.keyError)) ∧
    (∀ (v : Val) (i : Int), i ≠ 1 → v.isList = false →
        add_stage_completion_to_graph (some v) i =
          (some v, some PyErr.typeError)) := by
  refine ⟨?_, ?_, ?_⟩
  · intro v
    unfold add_stage_completion_to_graph
    rw [if_pos rfl]
  · intro i hi
    unfold add_stage_completion_to_graph
    rw [if_neg hi]
  · intro v i hi hv
    unfold add_stage_completion_to_graph
    rw [if_neg hi]
    dsimp only
    rw [if_pos (by simp [hv])]

/-- Witness for the amended C7 at concrete attribute values. -/
theorem add_stage_completion_error_contract_witness :
    add_stage_completion_to_graph (some (Val.vlist [Val.vint 1])) 1 =
      (some (Val.vlist [Val.vint 1]), some PyErr.valueError) ∧
    add_stage_completion_to_graph none 2 = (none, some PyErr.keyError) ∧
    add_stage_completion_to_graph (some (Val.vint 7)) 2 =
      (some (Val.vint 7), some PyErr.typeError) :=
  ⟨add_stage_completion_error_contract.1 _,
   add_stage_completion_error_contract.2.1 2 (by decide),
   add_stage_completion_error_contract.2.2 _ 2 (by decide) rfl⟩

/-- Python `==` on two ints is integer equality. -/
theorem pyEq_vint (a b : Int) : pyEq (Val.vint a) (Val.vint b) = (a == b) := by
  simp [pyEq]

/-- Python membership distributes over list append. -/
theorem pyContains_append (l1 l2 : List Val) (x : Val) :
    pyContains (l1 ++ l2) x = (pyContains l1 x || pyContains l2 x) := by
  simp [pyContains]

/-- A successful `add_stage_completion_to_graph` call on a list-valued
attribute: the index is not 1, was not yet present, and is appended. -/
theorem add_stage_step_ok (l : List Val) (i : Int) (attr2 : Option Val)
    (h : add_stage_completion_to_graph (some (Val.vlist l)) i = (attr2, none)) :
    i ≠ 1 ∧ pyContains l (Val.vint i) = false ∧
      attr2 = some (Val.vlist (l ++ [Val.vint i])) := by
  unfold add_stage_completion_to_graph at h
  by_cases hi : i = 1
  · rw [if_pos hi] at h
    cases h
  · rw [if_neg hi] at h
    dsimp only [Val.isList] at h
    rw [if_neg (by simp)] at h
    by_cases hc : pyContains l (Val.vint i)
    · rw [if_pos hc] at h
      cases h
    · rw [if_neg hc] at h
      obtain ⟨h1, -⟩ := Prod.mk.injEq .. ▸ h
      exact ⟨hi, by simpa using hc, by rw [← h1]⟩

/-- A successful sequence of calls starting from an existing list appends
exactly the fresh, duplicate-free stage indices in order. -/
theorem applyStages_from_list :
    ∀ (idxs : List Int) (l : List Val) (attr2 : Option Val),
      applyStages (some (Val.vlist l)) idxs = some attr2 →
      attr2 = some (Val.vlist (l ++ idxs.map Val.vint)) ∧
      (∀ i ∈ idxs, pyContains l (Val.vint i) = false) ∧
      idxs.Nodup ∧ (1 : Int) ∉ idxs := by
  intro idxs
  induction idxs with
  | nil =>
    intro l attr2 h
    unfold applyStages at h
    cases h
    simp
  | cons i rest ih =>
    intro l attr2 h
    unfold applyStages at h
    cases hstep : add_stage_completion_to_graph (some (Val.vlist l)) i with
    | mk a e =>
      rw [hstep] at h
      cases e with
      | some err => cases h
      | none =>
        obtain ⟨hi, hfresh, ha⟩ := add_stage_step_ok l i a hstep
        subst ha
        obtain ⟨hval, hall, hnodup, hone⟩ := ih (l ++ [Val.vint i]) attr2 h
        refine ⟨?_, ?_, ?_, ?_⟩
        · rw [hval]
          simp [List.append_assoc]
        · intro j hj
          rcases List.mem_cons.1 hj with hj | hj
          · rw [hj]; exact hfresh
          · have h2 := hall j hj
            rw [pyContains_append] at h2
            exact (Bool.or_eq_false_iff.1 h2).1
        · refine List.nodup_cons.2 ⟨?_, hnodup⟩
          intro hmem
          have h2 := hall i hmem
          rw [pyContains_append] at h2
          have h3 := (Bool.or_eq_false_iff.1 h2).2
          simp [pyContains, pyEq_vint] at h3
        · intro hmem
          rcases List.mem_cons.1 hmem with hm | hm
          · exact hi hm.symm
          · exact hone hm

/-- C6: over any sequence of successful `add_stage_completion_to_graph`
calls, the `completed_stages` list only grows by appending each call's own
index exactly once (each successful call verifies its index is not yet
present), leaving earlier entries unchanged, so it never holds a duplicate;
on a fresh graph the stage-1 call initializes it (to the empty list, then
appends 1), and the final list is exactly the duplicate-free call
sequence. -/
theorem completed_stages_invariant :
    (∀ (l : List Val) (idxs : List Int) (attr2 : Option Val),
        applyStages (some (Val.vlist l)) idxs = some attr2 →
        attr2 = some (Val.vlist (l ++ idxs.map Val.vint)) ∧
        (∀ i ∈ idxs, pyContains l (Val.vint i) = false) ∧
        idxs.Nodup ∧ (1 : Int) ∉ idxs) ∧
    (∀ (idxs : List Int) (attr2 : Option Val),
        applyStages none idxs = some attr2 →
        (idxs = [] ∧ attr2 = none) ∨
        (∃ rest, idxs = 1 :: rest ∧
          attr2 = some (Val.vlist (idxs.map Val.vint)) ∧ idxs.Nodup)) := by
  constructor
  · intro l idxs attr2 h
    exact applyStages_from_list idxs l attr2 h
  · intro idxs attr2 h
    cases idxs with
    | nil =>
      unfold applyStages at h
      cases h
      exact Or.inl ⟨rfl, rfl⟩
    | cons i rest =>
      unfold applyStages at h
      by_cases hi : i = 1
      · subst hi
        rw [show add_stage_completion_to_graph none 1 =
            (some (Val.vlist [Val.vint 1]), none) from rfl] at h
        obtain ⟨hval, -, hnodup, hone⟩ :=
          applyStages_from_list rest [Val.vint 1] attr2 h
        refine Or.inr ⟨rest, rfl, ?_, ?_⟩
        · rw [hval]; simp
        · exact List.nodup_cons.2 ⟨hone, hnodup⟩
      · rw [show add_stage_completion_to_graph none i =
            (none, some PyErr.keyError) from by
              unfold add_stage_completion_to_graph
              rw [if_neg hi]] at h
        cases h

/-- Witness for C6: marking stages 2 then 4 on an initialized empty list. -/
theorem completed_stages_invariant_witness :
    some (Val.vlist [Val.vint 2, Val.vint 4]) =
      some (Val.vlist ([] ++ ([2, 4] : List Int).map Val.vint)) ∧
    (∀ i ∈ ([2, 4] : List Int), pyContains [] (Val.vint i) = false) ∧
    ([2, 4] : List Int).Nodup ∧ (1 : Int) ∉ ([2, 4] : List Int) :=
  completed_stages_invariant.1 [] [2, 4]
    (some (Val.vlist [Val.vint 2, Val.vint 4])) rfl

/-- An append-accumulating left fold of singletons is an append of a map. -/
theorem foldl_append_singleton {α β : Type} (g : α → β) :
    ∀ (l : List α) (init : List β),
      l.foldl (fun acc x => acc ++ [g x]) init = init ++ l.map g := by
  intro l
  induction l with
  | nil => intro init; simp
  | cons x xs ih =>
    intro init
    rw [List.foldl_cons, ih, List.map_cons]
    simp

/-- The inner loop of `get_expected_image_paths_stage_3` over graph names
appends, per name, the single input-graph path or one path per timestep. -/
theorem foldl_graph_names (filename extension : String) (sim : Nat) :
    ∀ (names : List String) (init : List String),
      names.foldl (fun acc2 graph_name =>
        if graph_name = "input_graph" then
          acc2 ++ ["results/" ++ graph_name ++ "_" ++ filename ++ extension]
        else
          (List.range sim).foldl (fun acc3 t =>
            acc3 ++ ["latex/Images/graphs/" ++ graph_name ++ "_" ++ filename ++
              "_" ++ toString t ++ extension]) acc2) init =
      init ++ names.flatMap (fun graph_name =>
        if graph_name = "input_graph" then
          ["results/" ++ graph_name ++ "_" ++ filename ++ extension]
        else
          (List.range sim).map (fun t =>
            "latex/Images/graphs/" ++ graph_name ++ "_" ++ filename ++ "_" ++
              toString t ++ extension)) := by
  intro names
  induction names with
  | nil => intro init; simp
  | cons n rest ih =>
    intro init
    rw [List.foldl_cons, List.flatMap_cons]
    by_cases hn : n = "input_graph"
    · rw [if_pos hn, if_pos hn, ih, List.append_assoc]
    · rw [if_neg hn, if_neg hn, foldl_append_singleton, ih, List.append_assoc]

/-- C9: with `alg_props` present and a derivable key, the stage-3 image
paths are exactly, per extension and per graph name, the single
`results/{name}_{key}{ext}` path for `input_graph` and one
`latex/Images/graphs/{name}_{key}_{t}{ext}` path per timestep
`t < sim_duration` for every other name. -/
theorem get_expected_image_paths_stage_3_contract
    (graph_names : List String) (input_graph : NxGraph) (run_config : PyDict)
    (extensions : List String) (get_sim_duration : NxGraph → PyDict → Nat)
    (filename : String)
    (hf : run_config_to_filename run_config = Except.ok filename)
    (ha : (input_graph.graph.lookup "alg_props").isSome = true) :
    get_expected_image_paths_stage_3 graph_names input_graph run_config
        extensions get_sim_duration =
      Except.ok (extensions.flatMap (fun extension =>
        graph_names.flatMap (fun graph_name =>
          if graph_name = "input_graph" then
            ["results/" ++ graph_name ++ "_" ++ filename ++ extension]
          else
            (List.range (get_sim_duration input_graph run_config)).map
              (fun t => "latex/Images/graphs/" ++ graph_name ++ "_" ++
                filename ++ "_" ++ toString t ++ extension)))) := by
  unfold get_expected_image_paths_stage_3
  rw [hf]
  dsimp only
  rw [if_neg (by simp [ha])]
  congr 1
  have haux : ∀ (exts : List String) (init : List String),
      exts.foldl (fun acc extension =>
        graph_names.foldl (fun acc2 graph_name =>
          if graph_name = "input_graph" then
            acc2 ++ ["results/" ++ graph_name ++ "_" ++ filename ++ extension]
          else
            (List.range (get_sim_duration input_graph run_config)).foldl
              (fun acc3 t =>
                acc3 ++ ["latex/Images/graphs/" ++ graph_name ++ "_" ++
                  filename ++ "_" ++ toString t ++ extension]) acc2) acc) init =
      init ++ exts.flatMap (fun extension =>
        graph_names.flatMap (fun graph_name =>
          if graph_name = "input_graph" then
            ["results/" ++ graph_name ++ "_" ++ filename ++ extension]
          else
            (List.range (get_sim_duration input_graph run_config)).map
              (fun t => "latex/Images/graphs/" ++ graph_name ++ "_" ++
                filename ++ "_" ++ toString t ++ extension))) := by
    intro exts
    induction exts with
    | nil => intro init; simp
    | cons e rest ih =>
      intro init
      rw [List.foldl_cons, List.flatMap_cons, foldl_graph_names, ih,
        List.append_assoc]
  simpa using haux extensions []

/-- Witness for C9 at a concrete graph, config, and path list. -/
theorem get_expected_image_paths_stage_3_contract_witness :
    get_expected_image_paths_stage_3 ["input_graph", "snn_algo_graph"]
        ⟨[("alg_props", Val.vnone)]⟩ cfgA [".png"] (fun _ _ => 2) =
      Except.ok ([".png"].flatMap (fun extension =>
        (["input_graph", "snn_algo_graph"] : List String).flatMap
          (fun graph_name =>
            if graph_name = "input_graph" then
              ["results/" ++ graph_name ++ "_" ++ cfgAFilename ++ extension]
            else
              (List.range 2).map (fun t =>
                "latex/Images/graphs/" ++ graph_name ++ "_" ++ cfgAFilename ++
                  "_" ++ toString t ++ extension)))) :=
  get_expected_image_paths_stage_3_contract _ _ _ _ _ cfgAFilename
    (run_config_to_filename_eval cfgA cfgAStripped rfl cfgAFilename_short)
    (by simp)

/-- A lookup is `none` exactly when the key is absent. -/
theorem lookup_none_iff (k : String) :
    ∀ (d : PyDict), d.lookup k = none ↔ k ∉ d.map Prod.fst := by
  intro d
  induction d with
  | nil => simp
  | cons hd tl ih =>
    obtain ⟨k2, v2⟩ := hd
    by_cases hk : k = k2
    · subst hk
      simp [List.lookup_cons]
    · simp only [List.lookup_cons, List.map_cons, List.mem_cons]
      rw [show (k == k2) = false from beq_eq_false_iff_ne.2 hk]
      simp [ih, hk]

/-- Popping one key does not change lookups at other keys. -/
theorem lookup_popIfPresent (k0 k : String) (hk : k ≠ k0) :
    ∀ (d : PyDict), (popIfPresent d k0).lookup k = d.lookup k := by
  have haux : ∀ (d : PyDict) (v : Val) (d2 : PyDict),
      popKey d k0 = some (v, d2) → d2.lookup k = d.lookup k := by
    intro d
    induction d with
    | nil => intro v d2 h; cases h
    | cons hd tl ih =>
      obtain ⟨k2, v2⟩ := hd
      intro v d2 h
      unfold popKey at h
      by_cases h2 : k2 = k0
      · rw [if_pos h2] at h
        cases h
        subst h2
        rw [List.lookup_cons,
          show (k == k2) = false from beq_eq_false_iff_ne.2 hk]
      · rw [if_neg h2] at h
        cases h3 : popKey tl k0 with
        | none => rw [h3] at h; cases h
        | some p =>
          obtain ⟨v3, tl2⟩ := p
          rw [h3] at h
          injection h with h4
          injection h4 with h5 h6
          subst h5
          subst h6
          rw [List.lookup_cons, List.lookup_cons]
          cases hbeq : k == k2
          · exact ih v3 tl2 h3
          · rfl
  intro d
  unfold popIfPresent
  cases h : popKey d k0 with
  | none => rfl
  | some p => exact haux d p.1 p.2 (by rw [h])

/-- When every left entry matches in the right dict, a successful left
lookup has a `pyEq`-equal right lookup. -/
theorem pyEqEntries_lookup (k : String) (v : Val) :
    ∀ (d1 d2 : PyDict), pyEqEntries d1 d2 = true → d1.lookup k = some v →
      ∃ w, d2.lookup k = some w ∧ pyEq v w = true := by
  intro d1
  induction d1 with
  | nil => intro d2 h hl; cases hl
  | cons hd rest ih =>
    obtain ⟨k1, v1⟩ := hd
    intro d2 h hl
    rw [show pyEqEntries ((k1, v1) :: rest) d2 =
        ((match d2.lookup k1 with
          | some w => pyEq v1 w
          | none => false) && pyEqEntries rest d2) from by
        simp [pyEqEntries]] at h
    rw [Bool.and_eq_true] at h
    obtain ⟨h1, h2⟩ := h
    rw [List.lookup_cons] at hl
    cases hbeq : k == k1 with
    | true =>
      rw [hbeq] at hl
      cases hl
      have hk : k = k1 := beq_iff_eq.1 hbeq
      cases hlk : d2.lookup k1 with
      | none => rw [hlk] at h1; cases h1
      | some w =>
        rw [hlk] at h1
        exact ⟨w, by rw [hk, hlk], h1⟩
    | false =>
      rw [hbeq] at hl
      exact ih d2 h2 hl

/-- Python `==` on dicts implies agreement of successful lookups. -/
theorem pyEq_dict_lookup (d1 d2 : PyDict) (k : String) (v : Val)
    (h : pyEq (Val.vdict d1) (Val.vdict d2) = true)
    (hl : d1.lookup k = some v) :
    ∃ w, d2.lookup k = some w ∧ pyEq v w = true := by
  rw [show pyEq (Val.vdict d1) (Val.vdict d2) =
      (d1.length == d2.length && pyEqEntries d1 d2) from by simp [pyEq]] at h
  rw [Bool.and_eq_true] at h
  exact pyEqEntries_lookup k v d1 d2 h.2 hl

/-- `dicts_are_equal` with `without_unique_id` implies agreement of every
non-`unique_id` lookup, given both dicts range over the same keys. -/
theorem dicts_are_equal_agree (req ld : PyDict)
    (hkeys : ∀ k, k ∈ req.map Prod.fst ↔ k ∈ ld.map Prod.fst)
    (h : dicts_are_equal req ld true = true) (k : String)
    (hk : k ≠ "unique_id") :
    pyEqOpt (req.lookup k) (ld.lookup k) = true := by
  unfold dicts_are_equal at h
  rw [if_pos rfl] at h
  cases hr : req.lookup k with
  | some v =>
    have hr2 : (popIfPresent req "unique_id").lookup k = some v := by
      rw [lookup_popIfPresent "unique_id" k hk, hr]
    obtain ⟨w, hw, heq⟩ :=
      pyEq_dict_lookup (popIfPresent req "unique_id")
        (popIfPresent ld "unique_id") k v h hr2
    rw [lookup_popIfPresent "unique_id" k hk] at hw
    rw [hw]
    exact heq
  | none =>
    have h2 : ld.lookup k = none := by
      rw [lookup_none_iff]
      exact fun hmem => ((lookup_none_iff k req).1 hr) ((hkeys k).2 hmem)
    rw [h2]
    rfl

/-- C8: `load_results_stage_1` verifies the loaded run config against the
requested one after removing only `unique_id` from both sides; any
difference in a non-`unique_id` field (volatile flags included) raises the
run-config-mismatch error, and on success the returned bundle's run config
agrees with the requested one at every non-`unique_id` field. -/
theorem load_results_stage_1_contract (req : PyDict) (loaded : StageOneDict)
    (hkeys : ∀ k, k ∈ req.map Prod.fst ↔
      k ∈ loaded.run_config.map Prod.fst) :
    (∀ b, load_results_stage_1 req loaded = Except.ok b →
        b = loaded ∧ dicts_are_equal req loaded.run_config true = true ∧
        (∀ k, k ≠ "unique_id" →
          pyEqOpt (req.lookup k) (b.run_config.lookup k) = true)) ∧
    (∀ k, k ≠ "unique_id" →
        pyEqOpt (req.lookup k) (loaded.run_config.lookup k) = false →
        load_results_stage_1 req loaded = Except.error PyErr.exception) := by
  constructor
  · intro b hb
    unfold load_results_stage_1 at hb
    by_cases hd : dicts_are_equal req loaded.run_config true
    · rw [if_neg (by simp [hd])] at hb
      by_cases hg : expected_graphs_are_in_dict req loaded.graphs_dict
      · rw [if_neg (by simp [hg])] at hb
        cases hb
        exact ⟨rfl, hd,
          fun k hk => dicts_are_equal_agree req loaded.run_config hkeys hd k hk⟩
      · rw [if_pos (by simp [hg])] at hb
        cases hb
    · rw [if_pos (by simp [hd])] at hb
      cases hb
  · intro k hk hneq
    by_cases hd : dicts_are_equal req loaded.run_config true
    · have h2 := dicts_are_equal_agree req loaded.run_config hkeys hd k hk
      rw [hneq] at h2
      cases h2
    · unfold load_results_stage_1
      rw [if_pos (by simp [hd])]

/-- Witness for C8: loading a bundle whose stored config differs in the seed
raises the mismatch error. -/
theorem load_results_stage_1_contract_witness :
    load_results_stage_1 cfgA loadedOtherSeed = Except.error PyErr.exception :=
  (load_results_stage_1_contract cfgA loadedOtherSeed (fun _ => Iff.rfl)).2
    "seed" (by decide) rfl

/-- Two dicts agreeing except at volatile keys list the same keys. -/
theorem AgreeExcept_keys {vol : List String} {R1 R2 : PyDict}
    (h : AgreeExcept vol R1 R2) : R1.map Prod.fst = R2.map Prod.fst := by
  induction h with
  | nil => rfl
  | cons_eq k v h ih => simp [ih]
  | cons_vol k v1 v2 hk h ih => simp [ih]

/-- Popping a key erases exactly its first occurrence from the key list. -/
theorem popKey_keys (k : String) :
    ∀ (d : PyDict) (v : Val) (d2 : PyDict), popKey d k = some (v, d2) →
      d2.map Prod.fst = (d.map Prod.fst).erase k := by
  intro d
  induction d with
  | nil => intro v d2 h; cases h
  | cons hd tl ih =>
    obtain ⟨k2, v2⟩ := hd
    intro v d2 h
    unfold popKey at h
    by_cases h2 : k2 = k
    · rw [if_pos h2] at h
      injection h with h3
      injection h3 with h4 h5
      subst h5
      subst h2
      rw [List.map_cons, List.erase_cons_head]
    · rw [if_neg h2] at h
      cases h3 : popKey tl k with
      | none => rw [h3] at h; cases h
      | some p =>
        obtain ⟨v3, tl2⟩ := p
        rw [h3] at h
        injection h with h4
        injection h4 with h5 h6
        subst h6
        rw [List.map_cons, List.map_cons,
          List.erase_cons_tail (by simp [beq_eq_false_iff_ne, h2]), ih v3 tl2 h3]

/-- A pop fails exactly when the key is absent. -/
theorem popKey_none_iff (k : String) :
    ∀ (d : PyDict), popKey d k = none ↔ k ∉ d.map Prod.fst := by
  intro d
  induction d with
  | nil => simp [popKey]
  | cons hd tl ih =>
    obtain ⟨k2, v2⟩ := hd
    unfold popKey
    by_cases h2 : k2 = k
    · rw [if_pos h2]
      simp [h2]
    · rw [if_neg h2]
      cases h3 : popKey tl k with
      | none =>
        constructor
        · intro _
          simp only [List.map_cons, List.mem_cons]
          intro hmem
          rcases hmem with hmem | hmem
          · exact h2 hmem.symm
          · exact (ih.1 h3) hmem
        · intro _
          trivial
      | some p =>
        obtain ⟨v3, tl2⟩ := p
        constructor
        · intro h4
          cases h4
        · intro h4
          exfalso
          apply h4
          simp only [List.map_cons, List.mem_cons]
          refine Or.inr ?_
          by_contra h6
          have h7 := ih.2 h6
          rw [h7] at h3
          cases h3

/-- Popping any key preserves the agree-except relation. -/
theorem popKey_agree {vol : List String} (k : String) {R1 R2 : PyDict}
    (h : AgreeExcept vol R1 R2) :
    (popKey R1 k = none ∧ popKey R2 k = none) ∨
    (∃ v1 v2 R1f R2f, popKey R1 k = some (v1, R1f) ∧
      popKey R2 k = some (v2, R2f) ∧ AgreeExcept vol R1f R2f) := by
  induction h with
  | nil => exact Or.inl ⟨rfl, rfl⟩
  | cons_eq k2 v h ih =>
    unfold popKey
    by_cases h2 : k2 = k
    · rw [if_pos h2, if_pos h2]
      exact Or.inr ⟨v, v, _, _, rfl, rfl, h⟩
    · rw [if_neg h2, if_neg h2]
      rcases ih with ⟨hn1, hn2⟩ | ⟨v1, v2, R1f, R2f, hs1, hs2, hag⟩
      · rw [hn1, hn2]
        exact Or.inl ⟨rfl, rfl⟩
      · rw [hs1, hs2]
        exact Or.inr ⟨v1, v2, _, _, rfl, rfl, AgreeExcept.cons_eq k2 v hag⟩
  | cons_vol k2 v1 v2 hk h ih =>
    unfold popKey
    by_cases h2 : k2 = k
    · rw [if_pos h2, if_pos h2]
      exact Or.inr ⟨v1, v2, _, _, rfl, rfl, h⟩
    · rw [if_neg h2, if_neg h2]
      rcases ih with ⟨hn1, hn2⟩ | ⟨w1, w2, R1f, R2f, hs1, hs2, hag⟩
      · rw [hn1, hn2]
        exact Or.inl ⟨rfl, rfl⟩
      · rw [hs1, hs2]
        exact Or.inr ⟨w1, w2, _, _, rfl, rfl,
          AgreeExcept.cons_vol k2 v1 v2 hk hag⟩

/-- Popping a duplicate-free list of present keys succeeds on both sides of
the agree-except relation, preserves it, and removes exactly those keys. -/
theorem popMany_agree (vol : List String) :
    ∀ (ks : List String), ks.Nodup →
      ∀ (R1 R2 : PyDict), AgreeExcept vol R1 R2 → (R1.map Prod.fst).Nodup →
        (∀ k ∈ ks, k ∈ R1.map Prod.fst) →
        ∃ S1 S2, popMany R1 ks = Except.ok S1 ∧
          popMany R2 ks = Except.ok S2 ∧ AgreeExcept vol S1 S2 ∧
          (S1.map Prod.fst).Nodup ∧
          (∀ k2, k2 ∈ S1.map Prod.fst ↔
            (k2 ∈ R1.map Prod.fst ∧ k2 ∉ ks)) := by
  intro ks
  induction ks with
  | nil =>
    intro _ R1 R2 hagree hnodup _
    exact ⟨R1, R2, rfl, rfl, hagree, hnodup, by simp⟩
  | cons k rest ih =>
    intro hksnd R1 R2 hagree hnodup hpresent
    have hkmem : k ∈ R1.map Prod.fst := hpresent k (List.mem_cons_self _ _)
    rcases popKey_agree k hagree with ⟨hn1, _⟩ | ⟨v1, v2, R1f, R2f, hs1, hs2, hag⟩
    · exact absurd hkmem ((popKey_none_iff k R1).1 hn1)
    · have hkeys1 : R1f.map Prod.fst = (R1.map Prod.fst).erase k :=
        popKey_keys k R1 v1 R1f hs1
      have hnodup1 : (R1f.map Prod.fst).Nodup := by
        rw [hkeys1]
        exact hnodup.erase k
      have hrest : ∀ k2 ∈ rest, k2 ∈ R1f.map Prod.fst := by
        intro k2 hk2
        rw [hkeys1]
        have hne : k2 ≠ k := by
          intro hEq
          exact (List.nodup_cons.1 hksnd).1 (hEq ▸ hk2)
        exact (List.mem_erase_of_ne hne).2 (hpresent k2 (List.mem_cons_of_mem _ hk2))
      obtain ⟨S1, S2, hp1, hp2, hag2, hnd2, hkiff⟩ :=
        ih (List.nodup_cons.1 hksnd).2 R1f R2f hag hnodup1 hrest
      refine ⟨S1, S2, ?_, ?_, hag2, hnd2, ?_⟩
      · unfold popMany
        rw [hs1]
        exact hp1
      · unfold popMany
        rw [hs2]
        exact hp2
      · intro k2
        rw [hkiff k2, hkeys1, hnodup.mem_erase_iff]
        simp only [List.mem_cons, not_or]
        constructor
        · rintro ⟨⟨hne, hmem⟩, hnr⟩
          exact ⟨hmem, hne, hnr⟩
        · rintro ⟨hmem, hne, hnr⟩
          exact ⟨⟨hne, hmem⟩, hnr⟩

/-- Two dicts agreeing except at volatile keys, none of which occur, are
equal. -/
theorem AgreeExcept_eq_of_no_vol {vol : List String} {R1 R2 : PyDict}
    (h : AgreeExcept vol R1 R2)
    (hno : ∀ k ∈ R1.map Prod.fst, k ∉ vol) : R1 = R2 := by
  induction h with
  | nil => rfl
  | cons_eq k v h ih =>
    rw [ih (fun k2 hk2 => hno k2 (by simp [hk2]))]
  | cons_vol k v1 v2 hk h ih =>
    exact absurd hk (hno k (by simp))

/-- C1: `run_config_to_filename` returns the same result for two run
configurations (with duplicate-free keys) that contain the five volatile
fields and differ only in the values of those fields. -/
theorem run_config_to_filename_ignores_volatile (R1 R2 : PyDict)
    (hagree : AgreeExcept volatileFields R1 R2)
    (hnodup : (R1.map Prod.fst).Nodup)
    (hvol : ∀ k ∈ volatileFields, k ∈ R1.map Prod.fst) :
    run_config_to_filename R1 = run_config_to_filename R2 := by
  obtain ⟨S1, S2, h1, h2, hagree2, -, hkiff⟩ :=
    popMany_agree volatileFields volatileFields (by decide) R1 R2 hagree
      hnodup hvol
  have hS : S1 = S2 :=
    AgreeExcept_eq_of_no_vol hagree2 (fun k hk => ((hkiff k).1 hk).2)
  unfold run_config_to_filename
  rw [h1, h2, hS]

/-- Witness for C1: `cfgA` and `cfgB` differ exactly in the five volatile
values and derive the same filename. -/
theorem run_config_to_filename_ignores_volatile_witness :
    run_config_to_filename cfgA = run_config_to_filename cfgB :=
  run_config_to_filename_ignores_volatile cfgA cfgB
    (by
      unfold cfgA cfgB
      exact AgreeExcept.cons_vol _ _ _ (by decide)
        (AgreeExcept.cons_vol _ _ _ (by decide)
          (AgreeExcept.cons_vol _ _ _ (by decide)
            (AgreeExcept.cons_vol _ _ _ (by decide)
              (AgreeExcept.cons_vol _ _ _ (by decide)
                (AgreeExcept.cons_eq _ _
                  (AgreeExcept.cons_eq _ _ AgreeExcept.nil)))))))
    (by decide) (by decide)

end Snncompare
